import Mathlib

/-!
Shallow embedding of `iapyx`'s multi-wallet batch-voting controller
(`src/iapyx/src/load/multi_controller.rs`, struct `MultiController`).

The controller owns a pool of wallets and a REST backend handle.  The wallet
engine (`crate::Wallet`) and the REST backend (`crate::WalletBackend`) are code
of this repository that is not under `src/`; their behaviour is modelled from
the specification (see the `Modelled from the spec:` doc comments below).
Everything on `MultiController` itself is translated directly from the source.

Rust-to-Lean conventions used throughout:
* `&mut self` methods become functions returning the updated controller;
* a method that can `panic!` (an `.unwrap()` on a fallible value) returns
  `none`, while a `Result` return becomes `Except MCError`;  a method both
  fallible and panicking returns `Option (MultiController × Except MCError α)`
  where `none` is a panic and the controller component is the state visible
  to the caller afterwards (also when the `Except` is an error);
* opaque byte-level values (account ids, proposals, choices, fragment ids)
  become `Nat`.
-/

namespace Iapyx

/-- `AccountState` snapshot fetched from the backend: the account's funds
(`value`) and its spending counter, as read by `account_state.value()` and
`account_state.counter()` in the source. -/
structure AccountState where
  value : Nat
  counter : Nat
deriving DecidableEq

/-- A built vote transaction payload.  The source treats it as an opaque
signed byte vector (`tx.to_vec()`); the embedding keeps the data the wallet
signs over: the proposal, the choice, and the cached `(balance, counter)`
pair the wallet held when signing. -/
structure Tx where
  proposal : Nat
  choice : Nat
  balance : Nat
  counter : Nat
deriving DecidableEq

/-- `MultiControllerError` from the source, collapsed to the variants the
embedded operations can produce: a wallet (signing) error propagated by
`?` from `Wallet::vote`, and a backend error from any REST call. -/
inductive MCError where
  | walletError
  | backendError
deriving DecidableEq

/-- Modelled from the spec: a `WalletIdentity` is an opaque signing
capability plus an account identifier plus a locally cached
`(balance, counter)` pair, together with its per-wallet confirmation set
(`ConfirmationRecord`).  `canSign` models whether the wallet capability can
currently produce a transaction (spec §4.3: a wallet "not in a state that
can sign" makes `vote` fail with a signing error). -/
structure Wallet where
  account : Nat
  balance : Nat
  counter : Nat
  canSign : Bool
  confirmed : List Nat
deriving DecidableEq

/-- Modelled from the spec: `Wallet::set_state(value, counter)` overwrites
the wallet's last-known cached snapshot with the given pair (§4.2: the
cached snapshot is overwritten, never patched in place). -/
def Wallet.set_state (w : Wallet) (v c : Nat) : Wallet :=
  { w with balance := v, counter := c }

/-- Modelled from the spec: `Wallet::vote(settings, proposal, choice)` builds
a signed vote transaction from the wallet's current cached balance and
counter (§4.3) and "does not touch the counter cache at all"; it fails with
a signing error when the wallet capability cannot produce a transaction. -/
def Wallet.vote (w : Wallet) (_settings : Unit) (proposal choice : Nat) :
    Except MCError Tx :=
  if w.canSign then Except.ok ⟨proposal, choice, w.balance, w.counter⟩
  else Except.error MCError.walletError

/-- Modelled from the spec: `Wallet::confirm_transaction(id)` marks the
fragment id confirmed in this wallet's confirmation set; confirming an
already-confirmed id is a no-op (§4.4). -/
def Wallet.confirm_transaction (w : Wallet) (fid : Nat) : Wallet :=
  if fid ∈ w.confirmed then w else { w with confirmed := fid :: w.confirmed }

/-- Modelled from the spec: a mnemonic phrase is valid when it is a bip39
word list of a legal length (12/15/18/21/24 words); word-list membership is
abstracted away.  `Wallet::recover` fails on a malformed phrase (§4.1
`SecretRecoveryError`). -/
def validPhrase (m : List String) : Bool :=
  m.length = 12 || m.length = 15 || m.length = 18 || m.length = 21 || m.length = 24

/-- Modelled from the spec: `Wallet::recover(phrase, password)` derives a
fresh wallet identity from a mnemonic phrase and password, failing on a
malformed phrase.  The derived account id is an opaque function of the
phrase and password. -/
def Wallet.recover (m : List String) (password : Nat) : Option Wallet :=
  if validPhrase m then
    some ⟨m.foldl (fun a s => a * 131 + s.length) password, 0, 0, true, []⟩
  else none

/-- A fragment id is derived from the transaction's content (spec glossary:
"identified by a FragmentId derived from its content"). -/
def fragmentIdOf (tx : Tx) : Nat :=
  Nat.pair (Nat.pair tx.proposal tx.choice) (Nat.pair tx.balance tx.counter)

/-- Modelled from the spec: the REST backend (`WalletBackend`), reduced to
the observable behaviour the controller consumes (§6): a transport that is
either reachable or failing (`available`), the set of accounts present
on-chain with their states (`accounts`), and whether fragment submission is
currently accepted (`sendOk`). -/
structure WalletBackend where
  available : Bool
  accounts : Nat → Option AccountState
  sendOk : Bool

/-- Modelled from the spec: `settings()` fetches chain settings over the
transport, failing when the backend is unreachable (§6, §7). -/
def WalletBackend.settings (b : WalletBackend) : Except MCError Unit :=
  if b.available then Except.ok () else Except.error MCError.backendError

/-- Modelled from the spec: `account_state(account_id)` returns the current
snapshot for a present account and fails (transport failure or unknown
account) otherwise (§4.2, §6). -/
def WalletBackend.account_state (b : WalletBackend) (account : Nat) :
    Except MCError AccountState :=
  if b.available then
    match b.accounts account with
    | some st => Except.ok st
    | none => Except.error MCError.backendError
  else Except.error MCError.backendError

/-- Modelled from the spec: `account_exists(account_id)` answers existence
as a boolean, not through the state-fetch error path (§4.2): an absent
account yields `ok false`, only a transport failure is an error. -/
def WalletBackend.account_exists (b : WalletBackend) (account : Nat) :
    Except MCError Bool :=
  if b.available then Except.ok (b.accounts account).isSome
  else Except.error MCError.backendError

/-- Modelled from the spec: `send_fragment(bytes)` submits one payload and
returns its content-derived fragment id, or a backend error (§6). -/
def WalletBackend.send_fragment (b : WalletBackend) (tx : Tx) :
    Except MCError Nat :=
  if b.available && b.sendOk then Except.ok (fragmentIdOf tx)
  else Except.error MCError.backendError

/-- Modelled from the spec: `send_fragments_at_once(payloads, use_v1)`
submits the batch in one backend call, returning the fragment ids in the
order the payloads were handed over, or a backend error (§6). -/
def WalletBackend.send_fragments_at_once (b : WalletBackend) (txs : List Tx)
    (_use_v1 : Bool) : Except MCError (List Nat) :=
  if b.available && b.sendOk then Except.ok (txs.map fragmentIdOf)
  else Except.error MCError.backendError

/-- `MultiController` from the source: a backend handle, the owned wallet
pool, and the (opaque) chain settings fetched at construction time. -/
structure MultiController where
  backend : WalletBackend
  wallets : List Wallet
  settings : Unit

/-- `MultiController::wallet_count`: `self.wallets.len()`. -/
def MultiController.wallet_count (mc : MultiController) : Nat :=
  mc.wallets.length

/-- Sequential recovery of the wallet pool from mnemonics, as the source's
`mnemonics.iter().map(|x| Wallet::recover(x, password).unwrap()).collect()`:
the first malformed phrase panics (`none`); otherwise the wallets come out
in input order. -/
def recoverWallets (password : Nat) : List (List String) → Option (List Wallet)
  | [] => some []
  | m :: rest =>
    match Wallet.recover m password with
    | none => none
    | some w => (recoverWallets password rest).map (fun ws => w :: ws)

/-- `MultiController::recover`: build the backend, fetch `settings()?`
(a typed error on failure), then recover every wallet with `.unwrap()`
(a panic, hence `none`, on the first malformed phrase). -/
def MultiController.recover (backend : WalletBackend)
    (mnemonics : List (List String)) (password : Nat) :
    Option (Except MCError MultiController) :=
  match backend.settings with
  | Except.error e => some (Except.error e)
  | Except.ok s =>
    match recoverWallets password mnemonics with
    | none => none
    | some ws => some (Except.ok ⟨backend, ws, s⟩)

/-- `MultiController::vote`: `self.wallets.get_mut(i).unwrap()` (panic when
out of range), then `wallet.vote(settings, proposal, choice)?` (typed error
on signing failure, no wallet mutation), then `send_fragment`. -/
def MultiController.vote (mc : MultiController) (wallet_index : Nat)
    (proposal choice : Nat) :
    Option (MultiController × Except MCError Nat) :=
  match mc.wallets[wallet_index]? with
  | none => none
  | some w =>
    match w.vote mc.settings proposal choice with
    | Except.error e => some (mc, Except.error e)
    | Except.ok tx => some (mc, mc.backend.send_fragment tx)

/-- The transaction-building loop of `MultiController::votes_batch`.  In the
source the closure runs inside `votes_data.into_iter().map(..).rev()`:
because `map` is lazy and `rev` reverses the iterator *before* the closure
is ever run, `collect` evaluates the closure over the input pairs back to
front, with the shared `counter` (starting at the snapshot's counter)
incremented once per evaluation in that back-to-front order.  This function
is therefore applied to `votes_data.reverse`.  Each step does
`wallet.set_state(snapshot_value, counter)` then `wallet.vote(..).unwrap()`
(panic, hence `none`, on signing failure) and appends the payload. -/
def buildVoteTxs (w : Wallet) (snapValue : Nat) (counter : Nat) :
    List (Nat × Nat) → Option (List Tx × Wallet)
  | [] => some ([], w)
  | (p, c) :: rest =>
    let w1 := w.set_state snapValue counter
    match w1.vote () p c with
    | Except.error _ => none
    | Except.ok tx =>
      match buildVoteTxs w1 snapValue (counter + 1) rest with
      | none => none
      | some (txs, wEnd) => some (tx :: txs, wEnd)

/-- `MultiController::votes_batch`: unwrap the indexed wallet (panic when
out of range), fetch the account snapshot (`?`, with no mutation yet), run
the reversed lazy build loop (mutating the wallet's cached state in place),
and hand the collected payloads to `send_fragments_at_once`.  The wallet
mutations performed by the build loop stay visible even when the submission
call returns an error. -/
def MultiController.votes_batch (mc : MultiController) (wallet_index : Nat)
    (use_v1 : Bool) (votes_data : List (Nat × Nat)) :
    Option (MultiController × Except MCError (List Nat)) :=
  match mc.wallets[wallet_index]? with
  | none => none
  | some w =>
    match mc.backend.account_state w.account with
    | Except.error e => some (mc, Except.error e)
    | Except.ok st =>
      match buildVoteTxs w st.value st.counter votes_data.reverse with
      | none => none
      | some (txs, wEnd) =>
        some ({ mc with wallets := mc.wallets.set wallet_index wEnd },
          mc.backend.send_fragments_at_once txs use_v1)

/-- `MultiController::confirm_transaction`: broadcast the fragment id to
every wallet's confirmation set. -/
def MultiController.confirm_transaction (mc : MultiController) (fid : Nat) :
    MultiController :=
  { mc with wallets := mc.wallets.map (fun w => w.confirm_transaction fid) }

/-- `MultiController::refresh_wallet`: unwrap the indexed wallet (panic when
out of range), fetch the snapshot (`?`), and overwrite the cached pair with
`set_state(value, counter)`. -/
def MultiController.refresh_wallet (mc : MultiController) (wallet_index : Nat) :
    Option (MultiController × Except MCError Unit) :=
  match mc.wallets[wallet_index]? with
  | none => none
  | some w =>
    match mc.backend.account_state w.account with
    | Except.error e => some (mc, Except.error e)
    | Except.ok st =>
      some ({ mc with
        wallets := mc.wallets.set wallet_index (w.set_state st.value st.counter) },
        Except.ok ())

/-- `MultiController::is_converted`: unwrap the indexed wallet (panic when
out of range) and ask the backend's dedicated existence check. -/
def MultiController.is_converted (mc : MultiController) (wallet_index : Nat) :
    Option (MultiController × Except MCError Bool) :=
  match mc.wallets[wallet_index]? with
  | none => none
  | some w => some (mc, mc.backend.account_exists w.account)


/-! ## Helper characterisations of the batch-build loop -/

/-- The payload list `buildVoteTxs` produces on a signing-capable wallet:
one transaction per pair, in the order the loop consumes them, each carrying
the snapshot balance and the successive counter values. -/
def txsSpec (v ctr : Nat) : List (Nat × Nat) → List Tx
  | [] => []
  | (p, c) :: rest => ⟨p, c, v, ctr⟩ :: txsSpec v (ctr + 1) rest

/-- The wallet state `buildVoteTxs` leaves behind: untouched on an empty
pair list, otherwise overwritten by the last `set_state` of the loop. -/
def wAfterBuild (w : Wallet) (v ctr : Nat) (pairs : List (Nat × Nat)) : Wallet :=
  match pairs with
  | [] => w
  | _ :: _ => w.set_state v (ctr + pairs.length - 1)

theorem Wallet.set_state_set_state (w : Wallet) (a b v c : Nat) :
    (w.set_state a b).set_state v c = w.set_state v c := rfl

theorem Wallet.canSign_set_state (w : Wallet) (v c : Nat) :
    (w.set_state v c).canSign = w.canSign := rfl

theorem buildVoteTxs_eq (pairs : List (Nat × Nat)) :
    ∀ (w : Wallet) (v ctr : Nat), w.canSign = true →
      buildVoteTxs w v ctr pairs =
        some (txsSpec v ctr pairs, wAfterBuild w v ctr pairs) := by
  induction pairs with
  | nil => intro w v ctr _; rfl
  | cons pc rest ih =>
    intro w v ctr hs
    obtain ⟨p, c⟩ := pc
    have hs1 : (w.set_state v ctr).canSign = true := hs
    have hvote : (w.set_state v ctr).vote () p c =
        Except.ok ⟨p, c, v, ctr⟩ := by
      simp [Wallet.vote, Wallet.set_state, hs]
    have hrec := ih (w.set_state v ctr) v (ctr + 1) hs1
    have hend : wAfterBuild (w.set_state v ctr) v (ctr + 1) rest =
        wAfterBuild w v ctr ((p, c) :: rest) := by
      cases rest with
      | nil => simp [wAfterBuild]
      | cons q qs =>
        simp only [wAfterBuild, Wallet.set_state_set_state, List.length_cons]
        congr 1
        omega
    simp only [buildVoteTxs, hvote, hrec, txsSpec, hend]

theorem txsSpec_map_counter (pairs : List (Nat × Nat)) :
    ∀ v ctr : Nat, (txsSpec v ctr pairs).map Tx.counter =
      List.range' ctr pairs.length := by
  induction pairs with
  | nil => intro v ctr; rfl
  | cons pc rest ih =>
    intro v ctr
    obtain ⟨p, c⟩ := pc
    simp only [txsSpec, List.map_cons, List.length_cons, List.range'_succ, ih v (ctr + 1)]

theorem txsSpec_balance (pairs : List (Nat × Nat)) :
    ∀ (v ctr : Nat) (tx : Tx), tx ∈ txsSpec v ctr pairs → tx.balance = v := by
  induction pairs with
  | nil => intro v ctr tx h; simp [txsSpec] at h
  | cons pc rest ih =>
    intro v ctr tx h
    obtain ⟨p, c⟩ := pc
    rcases (List.mem_cons).1 h with h1 | h2
    · subst h1; rfl
    · exact ih v (ctr + 1) tx h2

theorem txsSpec_getElem? (pairs : List (Nat × Nat)) :
    ∀ v ctr k : Nat, (txsSpec v ctr pairs)[k]? =
      (pairs[k]?).map (fun pc => (⟨pc.1, pc.2, v, ctr + k⟩ : Tx)) := by
  induction pairs with
  | nil => intro v ctr k; simp [txsSpec]
  | cons pc rest ih =>
    intro v ctr k
    obtain ⟨p, c⟩ := pc
    cases k with
    | zero => simp [txsSpec]
    | succ k =>
      simp only [txsSpec, List.getElem?_cons_succ, ih v (ctr + 1) k]
      have : ctr + 1 + k = ctr + (k + 1) := by omega
      rw [this]

theorem txsSpec_length (pairs : List (Nat × Nat)) :
    ∀ v ctr : Nat, (txsSpec v ctr pairs).length = pairs.length := by
  induction pairs with
  | nil => intro v ctr; rfl
  | cons pc rest ih =>
    intro v ctr
    obtain ⟨p, c⟩ := pc
    simp only [txsSpec, List.length_cons, ih v (ctr + 1)]


/-! ## Concrete fixtures used by witnesses and counterexamples -/

/-- A reachable backend that accepts submissions and knows one account
(id 7) with balance 100 and counter 5 — the spec's §8 scenario. -/
def bkOk : WalletBackend :=
  ⟨true, fun a => if a = 7 then some ⟨100, 5⟩ else none, true⟩

/-- A reachable backend that knows account 7 but rejects submissions. -/
def bkNoSend : WalletBackend :=
  ⟨true, fun a => if a = 7 then some ⟨100, 5⟩ else none, false⟩

/-- An unreachable backend. -/
def bkDown : WalletBackend :=
  ⟨false, fun _ => none, true⟩

/-- A signing-capable wallet for account 7 with stale cache (0, 0). -/
def wA : Wallet := ⟨7, 0, 0, true, []⟩

/-- A signing-capable wallet for account 9, absent from `bkOk`. -/
def wAbsent : Wallet := ⟨9, 0, 0, true, []⟩

/-- A wallet whose capability cannot sign. -/
def wNoSign : Wallet := ⟨7, 0, 0, false, []⟩

/-- Controller over `bkOk` with the single wallet `wA`. -/
def mcOk : MultiController := ⟨bkOk, [wA], ()⟩

/-- Controller over `bkNoSend` with the single wallet `wA`. -/
def mcNoSend : MultiController := ⟨bkNoSend, [wA], ()⟩

/-- Controller over `bkDown` with the single wallet `wA`. -/
def mcDown : MultiController := ⟨bkDown, [wA], ()⟩

/-- Controller over `bkOk` with a wallet whose account is absent. -/
def mcAbsent : MultiController := ⟨bkOk, [wAbsent], ()⟩

/-- Controller over `bkOk` with a non-signing wallet. -/
def mcNoSign : MultiController := ⟨bkOk, [wNoSign], ()⟩

/-! ## C5 -/

/-- C5: after a successful `refresh_wallet(wallet_index)`, the wallet's
cached counter equals the counter reported by the backend snapshot of that
fetch, and the cached balance equals that same snapshot's value. -/
theorem refresh_wallet_sets_cache_to_snapshot
    (mc mc' : MultiController) (i : Nat) (w : Wallet) (st : AccountState)
    (hw : mc.wallets[i]? = some w)
    (hst : mc.backend.account_state w.account = Except.ok st)
    (hrun : mc.refresh_wallet i = some (mc', Except.ok ())) :
    mc'.wallets[i]? = some (w.set_state st.value st.counter) ∧
    (w.set_state st.value st.counter).counter = st.counter ∧
    (w.set_state st.value st.counter).balance = st.value := by
  have hi : i < mc.wallets.length := by
    by_contra hlt
    rw [List.getElem?_eq_none (by omega)] at hw
    exact Option.noConfusion hw
  unfold MultiController.refresh_wallet at hrun
  simp only [hw, hst, Option.some.injEq, Prod.mk.injEq] at hrun
  obtain ⟨hmc', -⟩ := hrun
  subst hmc'
  refine ⟨?_, rfl, rfl⟩
  simp [List.getElem?_set_self', List.getElem?_eq_getElem, hi]

/-- Witness for C5 at the spec's §8 scenario: refreshing wallet 0 of `mcOk`
caches balance 100 and counter 5. -/
theorem refresh_wallet_sets_cache_to_snapshot_witness :
    ({ mcOk with wallets := [Wallet.set_state wA 100 5] } : MultiController).wallets[0]?
        = some (Wallet.set_state wA 100 5) ∧
    (Wallet.set_state wA 100 5).counter = 5 ∧
    (Wallet.set_state wA 100 5).balance = 100 := by
  have h := refresh_wallet_sets_cache_to_snapshot mcOk
    { mcOk with wallets := [Wallet.set_state wA 100 5] } 0 wA ⟨100, 5⟩ rfl rfl rfl
  exact h

/-! ## C6 -/

/-- C6: `confirm_transaction(fragment_id)` is idempotent — applying it twice
in succession leaves the controller exactly as applying it once, for every
fragment id and every controller state. -/
theorem confirm_transaction_idempotent (mc : MultiController) (fid : Nat) :
    (mc.confirm_transaction fid).confirm_transaction fid =
      mc.confirm_transaction fid := by
  unfold MultiController.confirm_transaction
  simp only [List.map_map]
  congr 1
  apply List.map_congr_left
  intro w _
  simp only [Function.comp_apply]
  unfold Wallet.confirm_transaction
  by_cases h : fid ∈ w.confirmed
  · simp [h]
  · simp [h]

/-! ## C7 -/

/-- C7: `is_converted(wallet_index)` answers existence without conflating it
with state-fetch errors: on a reachable backend it returns `Ok false` when
the wallet's account is absent and `Ok true` when it is present. -/
theorem is_converted_existence_semantics
    (mc : MultiController) (i : Nat) (w : Wallet)
    (hw : mc.wallets[i]? = some w)
    (hav : mc.backend.available = true) :
    (mc.backend.accounts w.account = none →
      mc.is_converted i = some (mc, Except.ok false)) ∧
    (∀ st, mc.backend.accounts w.account = some st →
      mc.is_converted i = some (mc, Except.ok true)) := by
  constructor
  · intro habs
    simp [MultiController.is_converted, WalletBackend.account_exists, hw, hav, habs]
  · intro st hpres
    simp [MultiController.is_converted, WalletBackend.account_exists, hw, hav, hpres]

/-- Witness for C7: on `bkOk`, wallet 0 of `mcAbsent` (account 9, absent)
answers `Ok false`; wallet 0 of `mcOk` (account 7, present) answers
`Ok true`. -/
theorem is_converted_existence_semantics_witness :
    mcAbsent.is_converted 0 = some (mcAbsent, Except.ok false) ∧
    mcOk.is_converted 0 = some (mcOk, Except.ok true) :=
  ⟨(is_converted_existence_semantics mcAbsent 0 wAbsent rfl rfl).1 rfl,
   (is_converted_existence_semantics mcOk 0 wA rfl rfl).2 ⟨100, 5⟩ rfl⟩

/-! ## C8 -/

/-- C8: the single-vote operation never touches the wallet cache — the
controller handed back is the one passed in, on success and on failure
alike — and a wallet capability that cannot sign yields the typed signing
error rather than a panic. -/
theorem vote_preserves_wallet_cache
    (mc : MultiController) (i : Nat) (p c : Nat) :
    (∀ r, mc.vote i p c = some r → r.1 = mc) ∧
    (∀ w, mc.wallets[i]? = some w → w.canSign = false →
      mc.vote i p c = some (mc, Except.error MCError.walletError)) := by
  constructor
  · intro r hr
    unfold MultiController.vote at hr
    cases hw : mc.wallets[i]? with
    | none => simp only [hw] at hr; exact Option.noConfusion hr
    | some w =>
      simp only [hw] at hr
      cases hv : w.vote mc.settings p c with
      | error e =>
        simp only [hv, Option.some.injEq] at hr
        rw [← hr]
      | ok tx =>
        simp only [hv, Option.some.injEq] at hr
        rw [← hr]
  · intro w hw hns
    simp [MultiController.vote, Wallet.vote, hw, hns]

/-- Witness for C8: voting through `mcNoSign` (wallet cannot sign) returns
the typed signing error with the controller unchanged. -/
theorem vote_preserves_wallet_cache_witness :
    mcNoSign.vote 0 1 2 = some (mcNoSign, Except.error MCError.walletError) ∧
    ((mcNoSign, Except.error MCError.walletError) :
        MultiController × Except MCError Nat).1 = mcNoSign := by
  have h := vote_preserves_wallet_cache mcNoSign 0 1 2
  exact ⟨h.2 wNoSign rfl rfl,
    h.1 (mcNoSign, Except.error MCError.walletError) (h.2 wNoSign rfl rfl)⟩

/-! ## C9 -/

/-- C9: every index-addressed operation (`vote`, `votes_batch`,
`refresh_wallet`, `is_converted`) treats an out-of-range wallet index as a
panic (`none`), never as a recoverable `Except` value; and under the
precondition `i < wallet_count` the out-of-range branch is unreachable:
`vote`, `refresh_wallet` and `is_converted` always return a value, and
`votes_batch` does too whenever the indexed wallet can sign (its only other
panic being the `.unwrap()` on a signing failure). -/
theorem out_of_range_index_panics
    (mc : MultiController) (i p c : Nat) (v1 : Bool) (vd : List (Nat × Nat)) :
    (mc.wallet_count ≤ i →
      mc.vote i p c = none ∧ mc.votes_batch i v1 vd = none ∧
      mc.refresh_wallet i = none ∧ mc.is_converted i = none) ∧
    (i < mc.wallet_count →
      (mc.vote i p c).isSome ∧ (mc.refresh_wallet i).isSome ∧
      (mc.is_converted i).isSome ∧
      ∀ w, mc.wallets[i]? = some w → w.canSign = true →
        (mc.votes_batch i v1 vd).isSome) := by
  constructor
  · intro hle
    have hw : mc.wallets[i]? = none := List.getElem?_eq_none hle
    refine ⟨?_, ?_, ?_, ?_⟩ <;>
      simp [MultiController.vote, MultiController.votes_batch,
        MultiController.refresh_wallet, MultiController.is_converted, hw]
  · intro hlt
    have hw : mc.wallets[i]? = some mc.wallets[i] :=
      List.getElem?_eq_getElem hlt
    refine ⟨?_, ?_, ?_, ?_⟩
    · cases hv : (mc.wallets[i]).vote mc.settings p c <;>
        simp [MultiController.vote, hw, hv]
    · cases hst : mc.backend.account_state (mc.wallets[i]).account <;>
        simp [MultiController.refresh_wallet, hw, hst]
    · simp [MultiController.is_converted, hw]
    · intro w hw' hs
      rw [hw'] at hw
      injection hw with hweq
      cases hst : mc.backend.account_state w.account with
      | error e => simp [MultiController.votes_batch, hw', hst]
      | ok st =>
        simp [MultiController.votes_batch, hw', hst,
          buildVoteTxs_eq vd.reverse w st.value st.counter hs]

/-- Witness for C9: on the one-wallet controller `mcOk`, index 5 makes all
four operations panic, while index 0 (in range, signing-capable wallet)
makes `vote`, `refresh_wallet`, `is_converted` and `votes_batch` all return
a value. -/
theorem out_of_range_index_panics_witness :
    (mcOk.vote 5 1 2 = none ∧ mcOk.votes_batch 5 false [(1, 0)] = none ∧
      mcOk.refresh_wallet 5 = none ∧ mcOk.is_converted 5 = none) ∧
    ((mcOk.vote 0 1 2).isSome ∧ (mcOk.refresh_wallet 0).isSome ∧
      (mcOk.is_converted 0).isSome ∧ (mcOk.votes_batch 0 false [(1, 0)]).isSome) := by
  have h5 := (out_of_range_index_panics mcOk 5 1 2 false [(1, 0)]).1 (by decide)
  have h0 := (out_of_range_index_panics mcOk 0 1 2 false [(1, 0)]).2 (by decide)
  exact ⟨h5, h0.1, h0.2.1, h0.2.2.1, h0.2.2.2 wA rfl rfl⟩

/-! ## Shared characterisation of a full `votes_batch` run -/

/-- On a signing-capable wallet with a fetched snapshot, `votes_batch`
builds `txsSpec` over the *reversed* input list, stores the loop's final
wallet state, and hands exactly those payloads to the backend. -/
theorem votes_batch_run
    (mc : MultiController) (i : Nat) (v1 : Bool) (vd : List (Nat × Nat))
    (w : Wallet) (st : AccountState)
    (hw : mc.wallets[i]? = some w) (hs : w.canSign = true)
    (hst : mc.backend.account_state w.account = Except.ok st) :
    mc.votes_batch i v1 vd =
      some ({ mc with
          wallets := mc.wallets.set i (wAfterBuild w st.value st.counter vd.reverse) },
        mc.backend.send_fragments_at_once (txsSpec st.value st.counter vd.reverse) v1) := by
  unfold MultiController.votes_batch
  simp only [hw, hst, buildVoteTxs_eq vd.reverse w st.value st.counter hs]

/-! ## C1 -/

/-- The three payloads actually built in the spec's §8 scenario
(counter 5, balance 100, input pairs on proposals 1, 2, 3): the closure
runs over the input back to front, so proposal 3 is signed first with
counter 5 and proposal 1 last with counter 7. -/
def txsBuilt : List Tx := [⟨3, 0, 100, 5⟩, ⟨2, 0, 100, 6⟩, ⟨1, 0, 100, 7⟩]

/-- C1 (counterexample): in the §8 scenario (remote counter 5, balance 100,
three input pairs) the batch is emitted with counters in *increasing* order
5, 6, 7 — not 7, 6, 5 as claimed — and the transaction built for input
pair 1 (proposal 1) is keyed to counter 7, not to `base + 1 - 1 = 5`:
`.rev()` on the lazy `map` reverses the iteration before the closure runs,
so the counter base goes to the *last* input pair. -/
theorem votes_batch_emitted_counter_order_counterexample :
    buildVoteTxs wA 100 5 (([(1, 0), (2, 0), (3, 0)] : List (Nat × Nat)).reverse)
      = some (txsBuilt, Wallet.set_state wA 100 7) ∧
    (mcOk.votes_batch 0 false [(1, 0), (2, 0), (3, 0)]).map Prod.snd
      = some (Except.ok (txsBuilt.map fragmentIdOf)) ∧
    txsBuilt.map Tx.counter = [5, 6, 7] ∧
    txsBuilt.map Tx.proposal = [3, 2, 1] ∧
    ([5, 6, 7] : List Nat) ≠ [7, 6, 5] :=
  ⟨rfl, rfl, rfl, rfl, by decide⟩

/-- C1 (amended): for every successful `votes_batch`, the payload sequence
handed to the backend (and hence the fragment-id sequence) is the reverse
of the input order — the transaction at output position `k` (0-based) is
built from input pair `N - 1 - k` — but it is keyed to counter `base + k`,
so the emitted counters are `base, base+1, ..., base+N-1` in *increasing*
order (5, 6, 7 in the §8 scenario), and input pair `k` is keyed to counter
`base + N - 1 - k`, not `base + k`. -/
theorem votes_batch_reverses_input_order
    (mc : MultiController) (i : Nat) (v1 : Bool) (vd : List (Nat × Nat))
    (w : Wallet) (st : AccountState)
    (hw : mc.wallets[i]? = some w) (hs : w.canSign = true)
    (hst : mc.backend.account_state w.account = Except.ok st) :
    mc.votes_batch i v1 vd =
      some ({ mc with
          wallets := mc.wallets.set i (wAfterBuild w st.value st.counter vd.reverse) },
        mc.backend.send_fragments_at_once (txsSpec st.value st.counter vd.reverse) v1) ∧
    (txsSpec st.value st.counter vd.reverse).length = vd.length ∧
    ∀ k, k < vd.length →
      (txsSpec st.value st.counter vd.reverse)[k]? =
        (vd[vd.length - 1 - k]?).map
          (fun pc => (⟨pc.1, pc.2, st.value, st.counter + k⟩ : Tx)) := by
  refine ⟨votes_batch_run mc i v1 vd w st hw hs hst, ?_, ?_⟩
  · rw [txsSpec_length vd.reverse st.value st.counter, List.length_reverse]
  · intro k hk
    rw [txsSpec_getElem? vd.reverse st.value st.counter k,
      List.getElem?_reverse (l := vd) hk]

/-- Witness for C1 (amended) at the §8 scenario: the successful batch call
on `mcOk` emits `txsBuilt`, and output position 0 holds the transaction of
the *last* input pair (proposal 3) keyed to the base counter 5. -/
theorem votes_batch_reverses_input_order_witness :
    mcOk.votes_batch 0 false [(1, 0), (2, 0), (3, 0)] =
      some ({ mcOk with
          wallets := mcOk.wallets.set 0
            (wAfterBuild wA 100 5 (([(1, 0), (2, 0), (3, 0)] : List (Nat × Nat)).reverse)) },
        mcOk.backend.send_fragments_at_once
          (txsSpec 100 5 (([(1, 0), (2, 0), (3, 0)] : List (Nat × Nat)).reverse)) false) ∧
    (txsSpec 100 5 (([(1, 0), (2, 0), (3, 0)] : List (Nat × Nat)).reverse))[0]?
      = some (⟨3, 0, 100, 5⟩ : Tx) := by
  have h := votes_batch_reverses_input_order mcOk 0 false [(1, 0), (2, 0), (3, 0)]
    wA ⟨100, 5⟩ rfl rfl rfl
  refine ⟨h.1, ?_⟩
  rw [h.2.2 0 (by decide)]
  rfl

/-! ## C2 -/

/-- C2 (counterexample): the claim identifies construction order with input
order, but the transaction built for input pair 1 (proposal 1) is keyed to
counter 7 = base + N - 1, not to base = 5: in the §8 scenario the built
list has proposal 1 at the *last* position, keyed to counter 7. -/
theorem votes_batch_input_order_keying_counterexample :
    buildVoteTxs wA 100 5 (([(1, 0), (2, 0), (3, 0)] : List (Nat × Nat)).reverse)
      = some (txsBuilt, Wallet.set_state wA 100 7) ∧
    (mcOk.votes_batch 0 false [(1, 0), (2, 0), (3, 0)]).map Prod.snd
      = some (Except.ok ([fragmentIdOf ⟨3, 0, 100, 5⟩,
          fragmentIdOf ⟨2, 0, 100, 6⟩, fragmentIdOf ⟨1, 0, 100, 7⟩])) ∧
    txsBuilt[2]? = some (⟨1, 0, 100, 7⟩ : Tx) ∧
    (∀ tx ∈ txsBuilt, tx.proposal = 1 → tx.counter = 7) ∧
    (7 : Nat) ≠ 5 :=
  ⟨rfl, rfl, rfl, by decide, by decide⟩

/-- C2 (amended): for every `votes_batch` run on a fetched snapshot, the
counters used across the `N` built transactions, taken in the *actual
construction order* — which is the reverse of the input order, because the
`.rev()` is applied to the lazy iterator before the closures execute — are
exactly `base, base+1, ..., base+N-1`: a contiguous increasing run starting
at the snapshot counter with no value used twice.  Equivalently, input pair
`k` (0-based) is keyed to counter `base + N - 1 - k`. -/
theorem votes_batch_counters_contiguous
    (mc : MultiController) (i : Nat) (v1 : Bool) (vd : List (Nat × Nat))
    (w : Wallet) (st : AccountState)
    (hw : mc.wallets[i]? = some w) (hs : w.canSign = true)
    (hst : mc.backend.account_state w.account = Except.ok st) :
    mc.votes_batch i v1 vd =
      some ({ mc with
          wallets := mc.wallets.set i (wAfterBuild w st.value st.counter vd.reverse) },
        mc.backend.send_fragments_at_once (txsSpec st.value st.counter vd.reverse) v1) ∧
    (txsSpec st.value st.counter vd.reverse).map Tx.counter =
      List.range' st.counter vd.length ∧
    ((txsSpec st.value st.counter vd.reverse).map Tx.counter).Nodup ∧
    ∀ k, k < vd.length →
      (txsSpec st.value st.counter vd.reverse)[vd.length - 1 - k]? =
        (vd[k]?).map
          (fun pc => (⟨pc.1, pc.2, st.value, st.counter + (vd.length - 1 - k)⟩ : Tx)) := by
  have hmap : (txsSpec st.value st.counter vd.reverse).map Tx.counter =
      List.range' st.counter vd.length := by
    rw [txsSpec_map_counter vd.reverse st.value st.counter, List.length_reverse]
  refine ⟨votes_batch_run mc i v1 vd w st hw hs hst, hmap, ?_, ?_⟩
  · rw [hmap]
    exact List.nodup_range' st.counter vd.length 1 (by norm_num)
  · intro k hk
    have hk1 : vd.length - 1 - k < vd.length := by omega
    rw [txsSpec_getElem? vd.reverse st.value st.counter (vd.length - 1 - k),
      List.getElem?_reverse (l := vd) hk1]
    have : vd.length - 1 - (vd.length - 1 - k) = k := by omega
    rw [this]

/-- Witness for C2 (amended) at the §8 scenario: the counters of the built
batch, in construction order, are exactly `[5, 6, 7]` (no repeats), and
input pair 0 (proposal 1) is keyed to counter 7. -/
theorem votes_batch_counters_contiguous_witness :
    (txsSpec 100 5 (([(1, 0), (2, 0), (3, 0)] : List (Nat × Nat)).reverse)).map Tx.counter
      = List.range' 5 3 ∧
    ((txsSpec 100 5 (([(1, 0), (2, 0), (3, 0)] : List (Nat × Nat)).reverse)).map Tx.counter).Nodup ∧
    (txsSpec 100 5 (([(1, 0), (2, 0), (3, 0)] : List (Nat × Nat)).reverse))[2]?
      = some (⟨1, 0, 100, 7⟩ : Tx) := by
  have h := votes_batch_counters_contiguous mcOk 0 false [(1, 0), (2, 0), (3, 0)]
    wA ⟨100, 5⟩ rfl rfl rfl
  refine ⟨h.2.1, h.2.2.1, ?_⟩
  exact (h.2.2.2 0 (by decide)).trans rfl

/-! ## C10 -/

/-- C10 (counterexample): with an *empty* vote list the batch call succeeds
(the build loop never runs), yet the wallet's cached balance stays at its
stale value 0 and does not equal the snapshot's value 100 — so "regardless
of how many votes were built" is wrong for zero votes. -/
theorem empty_batch_keeps_stale_balance_counterexample :
    (mcOk.votes_batch 0 false []).map
        (fun r => (r.1.wallets.map Wallet.balance, r.2)) =
      some ([0], Except.ok []) ∧
    bkOk.accounts 7 = some ⟨100, 5⟩ ∧
    (0 : Nat) ≠ 100 :=
  ⟨rfl, rfl, by decide⟩

/-- C10 (amended): in every `votes_batch` call with a *non-empty* vote list,
each built transaction carries the balance of the single snapshot fetched
at batch start, and once the build loop has run (whether or not submission
then succeeds) the wallet's cached state is the snapshot balance paired
with the last counter used, so the cached balance equals the snapshot
value. -/
theorem nonempty_batch_overwrites_balance
    (mc mc' : MultiController) (i : Nat) (v1 : Bool) (vd : List (Nat × Nat))
    (out : Except MCError (List Nat)) (w : Wallet) (st : AccountState)
    (hw : mc.wallets[i]? = some w) (hs : w.canSign = true)
    (hst : mc.backend.account_state w.account = Except.ok st)
    (hne : vd ≠ [])
    (hrun : mc.votes_batch i v1 vd = some (mc', out)) :
    (∀ tx ∈ txsSpec st.value st.counter vd.reverse, tx.balance = st.value) ∧
    mc'.wallets[i]? = some (w.set_state st.value (st.counter + vd.length - 1)) ∧
    (w.set_state st.value (st.counter + vd.length - 1)).balance = st.value := by
  have hi : i < mc.wallets.length := by
    by_contra hlt
    rw [List.getElem?_eq_none (by omega)] at hw
    exact Option.noConfusion hw
  rw [votes_batch_run mc i v1 vd w st hw hs hst] at hrun
  injection hrun with h1
  have hmc' : mc' =
      { mc with wallets := mc.wallets.set i (wAfterBuild w st.value st.counter vd.reverse) } := by
    have := congrArg Prod.fst h1
    exact this.symm
  subst hmc'
  have hend : wAfterBuild w st.value st.counter vd.reverse =
      w.set_state st.value (st.counter + vd.length - 1) := by
    cases hrev : vd.reverse with
    | nil =>
      exact absurd (List.reverse_eq_nil_iff.mp hrev) hne
    | cons q qs =>
      have hlen2 : (q :: qs).length = vd.length := by
        rw [← hrev]
        exact List.length_reverse vd
      simp only [wAfterBuild, hlen2]
  refine ⟨fun tx htx => txsSpec_balance vd.reverse st.value st.counter tx htx, ?_, rfl⟩
  rw [hend]
  simp [List.getElem?_set_self', List.getElem?_eq_getElem, hi]

/-- The controller state after the successful §8 three-vote batch on
`mcOk`: wallet 0 overwritten with cached pair `(100, 7)`. -/
def mcOkAfterBatch : MultiController := ⟨bkOk, [Wallet.set_state wA 100 7], ()⟩

/-- Witness for C10 (amended) at the §8 scenario: after the successful
three-vote batch on `mcOk`, wallet 0's cached state is `(100, 7)` — balance
equal to the snapshot value. -/
theorem nonempty_batch_overwrites_balance_witness :
    mcOkAfterBatch.wallets[0]? = some (Wallet.set_state wA 100 7) ∧
    (Wallet.set_state wA 100 7).balance = 100 := by
  have h := nonempty_batch_overwrites_balance mcOk mcOkAfterBatch
    0 false [(1, 0), (2, 0), (3, 0)]
    (Except.ok (txsBuilt.map fragmentIdOf))
    wA ⟨100, 5⟩ rfl rfl rfl (by decide) rfl
  exact ⟨h.2.1, h.2.2⟩

/-! ## C3 -/

/-- C3 (counterexample): when the batch build succeeds but the submission
call fails, the error comes back with the wallet's cached pair already
overwritten — on `mcNoSend` (snapshot `(100, 5)`, stale cache `(0, 0)`) a
failed one-vote batch leaves the wallet at `(100, 5)`, a visible mutation
the claim's only documented exception (in-memory transactions) does not
cover. -/
theorem failed_submission_mutates_cache_counterexample :
    (mcNoSend.votes_batch 0 false [(1, 0)]).map
        (fun r => (r.1.wallets, r.2)) =
      some ([Wallet.set_state wA 100 5], Except.error MCError.backendError) ∧
    ([Wallet.set_state wA 100 5] : List Wallet) ≠ [wA] :=
  ⟨rfl, by decide⟩

/-- C3 (amended): a failed `vote`, `refresh_wallet` or `is_converted`
leaves the controller exactly as it was, and so does a `votes_batch` whose
snapshot fetch fails; but when `votes_batch` fails at the submission step
after a non-empty build, the target wallet's cached pair has already been
overwritten with the snapshot balance and the last counter used — that
mutation stays visible to the caller. -/
theorem failed_operations_state_visibility
    (mc : MultiController) (i p c : Nat) (v1 : Bool) (vd : List (Nat × Nat)) :
    (∀ mc' e, mc.vote i p c = some (mc', Except.error e) → mc' = mc) ∧
    (∀ mc' e, mc.refresh_wallet i = some (mc', Except.error e) → mc' = mc) ∧
    (∀ mc' e, mc.is_converted i = some (mc', Except.error e) → mc' = mc) ∧
    (∀ w e, mc.wallets[i]? = some w →
      mc.backend.account_state w.account = Except.error e →
      mc.votes_batch i v1 vd = some (mc, Except.error e)) ∧
    (∀ mc' out w st, mc.wallets[i]? = some w → w.canSign = true →
      mc.backend.account_state w.account = Except.ok st → vd ≠ [] →
      mc.votes_batch i v1 vd = some (mc', out) →
      mc'.wallets = mc.wallets.set i
        (w.set_state st.value (st.counter + vd.length - 1))) := by
  refine ⟨?_, ?_, ?_, ?_, ?_⟩
  · intro mc' e hr
    unfold MultiController.vote at hr
    cases hw : mc.wallets[i]? with
    | none => simp only [hw] at hr; exact Option.noConfusion hr
    | some w =>
      simp only [hw] at hr
      cases hv : w.vote mc.settings p c with
      | error e2 =>
        simp only [hv, Option.some.injEq, Prod.mk.injEq] at hr
        exact hr.1.symm
      | ok tx =>
        simp only [hv, Option.some.injEq, Prod.mk.injEq] at hr
        exact hr.1.symm
  · intro mc' e hr
    unfold MultiController.refresh_wallet at hr
    cases hw : mc.wallets[i]? with
    | none => simp only [hw] at hr; exact Option.noConfusion hr
    | some w =>
      simp only [hw] at hr
      cases hst : mc.backend.account_state w.account with
      | error e2 =>
        simp only [hst, Option.some.injEq, Prod.mk.injEq] at hr
        exact hr.1.symm
      | ok st =>
        simp only [hst, Option.some.injEq, Prod.mk.injEq] at hr
        exact absurd hr.2 (by simp)
  · intro mc' e hr
    unfold MultiController.is_converted at hr
    cases hw : mc.wallets[i]? with
    | none => simp only [hw] at hr; exact Option.noConfusion hr
    | some w =>
      simp only [hw, Option.some.injEq, Prod.mk.injEq] at hr
      exact hr.1.symm
  · intro w e hw hst
    unfold MultiController.votes_batch
    simp only [hw, hst]
  · intro mc' out w st hw hs hst hne hr
    rw [votes_batch_run mc i v1 vd w st hw hs hst] at hr
    injection hr with h1
    have hmc' : ({ mc with
        wallets := mc.wallets.set i (wAfterBuild w st.value st.counter vd.reverse) }
          : MultiController) = mc' := by
      simpa using congrArg Prod.fst h1
    have hend : wAfterBuild w st.value st.counter vd.reverse =
        w.set_state st.value (st.counter + vd.length - 1) := by
      cases hrev : vd.reverse with
      | nil => exact absurd (List.reverse_eq_nil_iff.mp hrev) hne
      | cons q qs =>
        have hlen2 : (q :: qs).length = vd.length := by
          rw [← hrev]
          exact List.length_reverse vd
        simp only [wAfterBuild, hlen2]
    rw [← hmc']
    show mc.wallets.set i (wAfterBuild w st.value st.counter vd.reverse) = _
    rw [hend]

/-- Witness for C3 (amended): the failed one-vote batch on `mcNoSend`
produces exactly the mutated pool predicted by the last conjunct. -/
theorem failed_operations_state_visibility_witness :
    mcNoSend.votes_batch 0 false [(1, 0)] =
      some (⟨bkNoSend, [Wallet.set_state wA 100 5], ()⟩,
        Except.error MCError.backendError) ∧
    (⟨bkNoSend, [Wallet.set_state wA 100 5], ()⟩ : MultiController).wallets =
      mcNoSend.wallets.set 0 (Wallet.set_state wA 100 5) := by
  have h := (failed_operations_state_visibility mcNoSend 0 1 0 false [(1, 0)]).2.2.2.2
    ⟨bkNoSend, [Wallet.set_state wA 100 5], ()⟩
    (Except.error MCError.backendError) wA ⟨100, 5⟩ rfl rfl rfl (by decide) rfl
  exact ⟨rfl, h⟩

/-! ## C4 -/

/-- A successful `recoverWallets` run yields exactly one wallet per phrase,
in input order: position `k` holds the wallet recovered from phrase `k`. -/
theorem recoverWallets_spec (pw : Nat) :
    ∀ (ms : List (List String)) (ws : List Wallet),
      recoverWallets pw ms = some ws →
      ws.length = ms.length ∧
      ∀ k : Nat, ws[k]? = (ms[k]?).bind (fun m => Wallet.recover m pw) := by
  intro ms
  induction ms with
  | nil =>
    intro ws h
    simp only [recoverWallets, Option.some.injEq] at h
    subst h
    exact ⟨rfl, fun k => by simp⟩
  | cons m rest ih =>
    intro ws h
    unfold recoverWallets at h
    cases hr : Wallet.recover m pw with
    | none => simp only [hr] at h; exact Option.noConfusion h
    | some w =>
      simp only [hr] at h
      cases hrec : recoverWallets pw rest with
      | none => simp only [hrec, Option.map_none'] at h; exact Option.noConfusion h
      | some ws0 =>
        simp only [hrec, Option.map_some', Option.some.injEq] at h
        subst h
        obtain ⟨hlen, hidx⟩ := ih ws0 hrec
        refine ⟨by simp [hlen], fun k => ?_⟩
        cases k with
        | zero => simp [hr]
        | succ k => simpa using hidx k

/-- When every phrase is well-formed, the sequential recovery loop panics
nowhere and produces a pool. -/
theorem recoverWallets_isSome (pw : Nat) :
    ∀ ms : List (List String), (∀ m ∈ ms, validPhrase m = true) →
      (recoverWallets pw ms).isSome := by
  intro ms
  induction ms with
  | nil => intro _; rfl
  | cons m rest ih =>
    intro hval
    have hm : validPhrase m = true := hval m (List.mem_cons_self m rest)
    have hr : Wallet.recover m pw =
        some ⟨m.foldl (fun a s => a * 131 + s.length) pw, 0, 0, true, []⟩ := by
      simp [Wallet.recover, hm]
    have hrest := ih (fun x hx => hval x (List.mem_cons_of_mem m hx))
    unfold recoverWallets
    rw [hr]
    cases hrec : recoverWallets pw rest with
    | none => rw [hrec] at hrest; simp at hrest
    | some ws0 => rfl

/-- The first malformed phrase makes the whole sequential recovery loop
panic (`none`). -/
theorem recoverWallets_fail (pw : Nat) :
    ∀ ms : List (List String), (∃ m ∈ ms, validPhrase m = false) →
      recoverWallets pw ms = none := by
  intro ms
  induction ms with
  | nil => intro h; obtain ⟨m, hm, _⟩ := h; exact absurd hm (List.not_mem_nil m)
  | cons m rest ih =>
    intro h
    obtain ⟨m0, hm0, hbad⟩ := h
    rcases List.mem_cons.mp hm0 with heq | hmem
    · subst heq
      unfold recoverWallets
      simp [Wallet.recover, hbad]
    · unfold recoverWallets
      cases hr : Wallet.recover m pw with
      | none => rfl
      | some w => simp [ih ⟨m0, hmem, hbad⟩]

/-- C4 (counterexample): a malformed phrase does abort the whole recovery
with no pool, but *not* as a typed error result — the `.unwrap()` in
`MultiController::recover` panics, modelled by `none`; the typed-error
outcome promised by the claim would be `some (Except.error _)`. -/
theorem recover_malformed_phrase_panics_counterexample :
    validPhrase ["alpha"] = false ∧
    MultiController.recover bkOk [["alpha"]] 0 = none :=
  ⟨by decide, rfl⟩

/-- C4 (amended): a successful recovery from `K` phrases yields a pool of
exactly `K` wallets in input order, and any malformed phrase in the list
makes the whole operation fail with no pool — but by a process-aborting
panic (`none`), not by the typed error result the claim promises.  (The
settings fetch preceding wallet recovery is the typed-error path and is
assumed to succeed via `available = true`.) -/
theorem recover_pool_order_and_fail_fast
    (bk : WalletBackend) (ms : List (List String)) (pw : Nat)
    (hav : bk.available = true) :
    (∀ ws, recoverWallets pw ms = some ws →
      MultiController.recover bk ms pw = some (Except.ok ⟨bk, ws, ()⟩) ∧
      ws.length = ms.length ∧
      ∀ k : Nat, ws[k]? = (ms[k]?).bind (fun m => Wallet.recover m pw)) ∧
    ((∀ m ∈ ms, validPhrase m = true) → (recoverWallets pw ms).isSome) ∧
    ((∃ m ∈ ms, validPhrase m = false) →
      MultiController.recover bk ms pw = none) := by
  have hset : bk.settings = Except.ok () := by
    simp [WalletBackend.settings, hav]
  refine ⟨?_, recoverWallets_isSome pw ms, ?_⟩
  · intro ws hws
    obtain ⟨hlen, hidx⟩ := recoverWallets_spec pw ms ws hws
    refine ⟨?_, hlen, hidx⟩
    unfold MultiController.recover
    simp only [hset, hws]
  · intro hex
    unfold MultiController.recover
    simp only [hset, recoverWallets_fail pw ms hex]

/-- Two well-formed phrases (12 and 15 words). -/
def msW : List (List String) := [List.replicate 12 "w", List.replicate 15 "w"]

/-- The pool the sequential recovery loop builds from `msW`. -/
def wsW : List Wallet := (recoverWallets 0 msW).getD []

/-- Witness for C4 (amended): recovering from the two well-formed phrases
of `msW` on `bkOk` succeeds with a two-wallet pool in input order. -/
theorem recover_pool_order_and_fail_fast_witness :
    recoverWallets 0 msW = some wsW ∧
    MultiController.recover bkOk msW 0 = some (Except.ok ⟨bkOk, wsW, ()⟩) ∧
    wsW.length = msW.length ∧
    wsW[0]? = (msW[0]?).bind (fun m => Wallet.recover m 0) ∧
    wsW[1]? = (msW[1]?).bind (fun m => Wallet.recover m 0) := by
  have h := (recover_pool_order_and_fail_fast bkOk msW 0 rfl).1 wsW rfl
  exact ⟨rfl, h.1, h.2.1, h.2.2 0, h.2.2 1⟩

end Iapyx
